import Mathlib

/-!
Verification development for the FerrymanX cross-chain bridge core:
the message-identity functions, the relay engine loop, the attestation
verification pipeline, and the replay-guard storage, shallowly embedded
from the repository's TypeScript sources.

Modelling conventions:
* EVM addresses, tx hashes, uint256 amounts and keccak digests are
  modelled as `Nat` values (hex strings compared with `toLowerCase` in
  the source denote the same value iff the `Nat`s are equal, so the
  case-insensitive string comparisons become `Nat` equality).
* `ethers.solidityPacked` is modelled as concatenation of fixed-width
  big-endian byte lists; `ethers.keccak256` is an external cryptographic
  primitive and is kept as an explicit function parameter
  `keccak : List Nat → Nat` of every definition that hashes.
-/

set_option maxRecDepth 100000

namespace FerrymanX

/-- Fixed-width big-endian byte encoding of a natural number: `toBytesBE k x`
is the `k`-byte big-endian encoding of `x % 256^k`, exactly the per-field
encoding `ethers.solidityPacked` uses for `uint16` (k = 2), `address`
(k = 20) and `uint256` (k = 32). -/
def toBytesBE : Nat → Nat → List Nat
  | 0, _ => []
  | k + 1, x => toBytesBE k (x / 256) ++ [x % 256]

/-- Decode a big-endian byte list back to a natural number. -/
def fromBytesBE (l : List Nat) : Nat := l.foldl (fun a b => a * 256 + b) 0

theorem toBytesBE_length (k x : Nat) : (toBytesBE k x).length = k := by
  induction k generalizing x with
  | zero => rfl
  | succ k ih => simp [toBytesBE, ih]

theorem fromBytesBE_append_single (l : List Nat) (b : Nat) :
    fromBytesBE (l ++ [b]) = fromBytesBE l * 256 + b := by
  simp [fromBytesBE, List.foldl_append]

theorem mod_pow256_succ (x k : Nat) :
    x % 256 ^ (k + 1) = x / 256 % 256 ^ k * 256 + x % 256 := by
  have h1 : 256 ^ (k + 1) = 256 * 256 ^ k := by ring
  have h2 : x = 256 * (x / 256) + x % 256 := (Nat.div_add_mod' x 256).symm ▸ by omega
  calc x % 256 ^ (k + 1)
      = (256 * (x / 256) + x % 256) % (256 * 256 ^ k) := by rw [h1, ← h2]
    _ = x / 256 % 256 ^ k * 256 + x % 256 := by
        rw [Nat.add_mod, Nat.mul_mod_mul_left]
        have hr : x % 256 < 256 := Nat.mod_lt _ (by norm_num)
        have hq : x / 256 % 256 ^ k < 256 ^ k := Nat.mod_lt _ (Nat.pos_pow_of_pos k (by norm_num))
        have hlt : 256 * (x / 256 % 256 ^ k) + x % 256 % (256 * 256 ^ k) < 256 * 256 ^ k := by
          have : x % 256 % (256 * 256 ^ k) ≤ x % 256 := Nat.mod_le _ _
          omega
        rw [Nat.mod_eq_of_lt hlt]
        have : x % 256 % (256 * 256 ^ k) = x % 256 := by
          apply Nat.mod_eq_of_lt
          have : (256 : Nat) ≤ 256 * 256 ^ k :=
            Nat.le_mul_of_pos_right _ (Nat.pos_pow_of_pos k (by norm_num))
          omega
        omega

theorem fromBytesBE_toBytesBE (k x : Nat) :
    fromBytesBE (toBytesBE k x) = x % 256 ^ k := by
  induction k generalizing x with
  | zero => simp [toBytesBE, fromBytesBE, Nat.mod_one]
  | succ k ih =>
    rw [toBytesBE, fromBytesBE_append_single, ih, mod_pow256_succ]

theorem toBytesBE_inj {k x y : Nat} (hx : x < 256 ^ k) (hy : y < 256 ^ k)
    (h : toBytesBE k x = toBytesBE k y) : x = y := by
  have := congrArg fromBytesBE h
  rwa [fromBytesBE_toBytesBE, fromBytesBE_toBytesBE, Nat.mod_eq_of_lt hx,
    Nat.mod_eq_of_lt hy] at this

/-- `ethers.solidityPacked(["uint16","uint16","address","uint256","address",
"address","uint256"], …)` — the hash input of the relayer's 7-field
`computeMessageId` (server/relayer.ts). -/
def solidityPacked7 (srcChainId dstChainId srcFerry nonce fromAddr toOnOther
    amountOut : Nat) : List Nat :=
  toBytesBE 2 srcChainId ++ toBytesBE 2 dstChainId ++ toBytesBE 20 srcFerry ++
    toBytesBE 32 nonce ++ toBytesBE 20 fromAddr ++ toBytesBE 20 toOnOther ++
    toBytesBE 32 amountOut

/-- `ethers.solidityPacked(["uint16","uint16","address","uint256","address",
"address","uint256","uint256","uint256"], …)` — the hash input of the
9-field `computeMessageId` used by the attestation route (server/routes.ts)
and by the client (client/src/lib/bridgeStorage.ts). -/
def solidityPacked9 (srcChainId dstChainId srcFerry nonce fromAddr toOnOther
    amountIn amountOut nativeFee : Nat) : List Nat :=
  toBytesBE 2 srcChainId ++ toBytesBE 2 dstChainId ++ toBytesBE 20 srcFerry ++
    toBytesBE 32 nonce ++ toBytesBE 20 fromAddr ++ toBytesBE 20 toOnOther ++
    toBytesBE 32 amountIn ++ toBytesBE 32 amountOut ++ toBytesBE 32 nativeFee

/-- Relay Engine message identity function, from `computeMessageId` in the
relayer (replit.md relayer source, lines 232–239): keccak256 of the packed
7-field tuple (srcChainId, dstChainId, srcFerry, nonce, from, toOnOther,
amountOut). -/
def computeMessageId7 (keccak : List Nat → Nat)
    (srcChainId dstChainId srcFerry nonce fromAddr toOnOther amountOut : Nat) : Nat :=
  keccak (solidityPacked7 srcChainId dstChainId srcFerry nonce fromAddr toOnOther amountOut)

/-- Attestation Verifier message identity function, from `computeMessageId`
in the routes file (src/unnamed/part_000, lines 140–157): keccak256 of the
packed 9-field tuple (…, amountIn, amountOut, nativeFee). -/
def computeMessageId9 (keccak : List Nat → Nat)
    (srcChainId dstChainId srcFerry nonce fromAddr toOnOther amountIn amountOut
      nativeFee : Nat) : Nat :=
  keccak (solidityPacked9 srcChainId dstChainId srcFerry nonce fromAddr toOnOther
    amountIn amountOut nativeFee)

/-- Client-side message identity function, from `computeMessageId` in
client/src/lib/bridgeStorage.ts (lines 22–39): keccak256 of the same packed
9-field tuple as the attestation route. -/
def computeMessageIdClient (keccak : List Nat → Nat)
    (srcChainId dstChainId srcFerry nonce fromAddr toOnOther amountIn amountOut
      nativeFee : Nat) : Nat :=
  keccak (solidityPacked9 srcChainId dstChainId srcFerry nonce fromAddr toOnOther
    amountIn amountOut nativeFee)

theorem solidityPacked7_length (s d f n a b m : Nat) :
    (solidityPacked7 s d f n a b m).length = 128 := by
  simp [solidityPacked7, toBytesBE_length]

theorem solidityPacked9_length (s d f n a b i o fee : Nat) :
    (solidityPacked9 s d f n a b i o fee).length = 192 := by
  simp [solidityPacked9, toBytesBE_length]

/-- Well-formedness of a 7-field tuple: each field fits the width its
`solidityPacked` slot encodes (16-bit chain ids, 160-bit addresses,
256-bit nonce/amount). -/
def wf7 (s d f n a b m : Nat) : Prop :=
  s < 256 ^ 2 ∧ d < 256 ^ 2 ∧ f < 256 ^ 20 ∧ n < 256 ^ 32 ∧ a < 256 ^ 20 ∧
    b < 256 ^ 20 ∧ m < 256 ^ 32

instance (s d f n a b m : Nat) : Decidable (wf7 s d f n a b m) := by
  unfold wf7; infer_instance

theorem solidityPacked7_inj {s d f n a b m s' d' f' n' a' b' m' : Nat}
    (h1 : wf7 s d f n a b m) (h2 : wf7 s' d' f' n' a' b' m')
    (h : solidityPacked7 s d f n a b m = solidityPacked7 s' d' f' n' a' b' m') :
    s = s' ∧ d = d' ∧ f = f' ∧ n = n' ∧ a = a' ∧ b = b' ∧ m = m' := by
  obtain ⟨hs, hd, hf, hn, ha, hb, hm⟩ := h1
  obtain ⟨hs', hd', hf', hn', ha', hb', hm'⟩ := h2
  simp only [solidityPacked7] at h
  obtain ⟨h, e7⟩ := List.append_inj h (by simp [toBytesBE_length])
  obtain ⟨h, e6⟩ := List.append_inj h (by simp [toBytesBE_length])
  obtain ⟨h, e5⟩ := List.append_inj h (by simp [toBytesBE_length])
  obtain ⟨h, e4⟩ := List.append_inj h (by simp [toBytesBE_length])
  obtain ⟨h, e3⟩ := List.append_inj h (by simp [toBytesBE_length])
  obtain ⟨e1, e2⟩ := List.append_inj h (by simp [toBytesBE_length])
  exact ⟨toBytesBE_inj hs hs' e1, toBytesBE_inj hd hd' e2, toBytesBE_inj hf hf' e3,
    toBytesBE_inj hn hn' e4, toBytesBE_inj ha ha' e5, toBytesBE_inj hb hb' e6,
    toBytesBE_inj hm hm' e7⟩

/-- Concrete stand-in used to instantiate the abstract `keccak` parameter
when a theorem or counterexample is evaluated at explicit inputs (the real
keccak256 is an external primitive; any concrete function suffices to
exercise the surrounding program logic). -/
def byteFold (l : List Nat) : Nat := l.foldl (fun a b => a * 256 + b % 256) 1

/-- An injective encoding of byte lists into `Nat`, used to instantiate the
abstract `keccak` parameter in statements that assume a collision-free hash. -/
def listEnc : List Nat → Nat
  | [] => 0
  | a :: l => Nat.pair a (listEnc l) + 1

theorem listEnc_injective : Function.Injective listEnc := by
  intro l₁ l₂ h
  induction l₁ generalizing l₂ with
  | nil =>
    cases l₂ with
    | nil => rfl
    | cons b t => simp [listEnc] at h
  | cons a t ih =>
    cases l₂ with
    | nil => simp [listEnc] at h
    | cons b t' =>
      simp only [listEnc, Nat.add_right_cancel_iff] at h
      obtain ⟨h1, h2⟩ := Nat.pair_eq_pair.mp h
      rw [h1, ih h2]

/-! ## Relay Engine (replit.md embedded relayer source, lines 196–395) -/

/-- The two networks of the `NETWORKS` table. -/
inductive Network where
  | eth
  | neox
deriving DecidableEq

/-- `NETWORKS[n].chainId`: Ethereum mainnet 1, Neo X mainnet 47763. -/
def chainIdOf : Network → Nat
  | .eth => 1
  | .neox => 47763

/-- `CONTRACTS.ETH.FERRY` = 0xDE7cF1Dd14b613db5A4727A59ad1Cc1ba6f47a86. -/
def ETH_FERRY : Nat := 0xDE7cF1Dd14b613db5A4727A59ad1Cc1ba6f47a86

/-- `CONTRACTS.NEOX.FERRY` = 0x81aC8AEDdaC85aA14011ab88944aA147472aC525. -/
def NEOX_FERRY : Nat := 0x81aC8AEDdaC85aA14011ab88944aA147472aC525

/-- `CONTRACTS[n].FERRY`. -/
def ferryOf : Network → Nat
  | .eth => ETH_FERRY
  | .neox => NEOX_FERRY

/-- Decoded `BridgeOutRequested(from, toOnOtherChain, amountIn, amountOut,
pforkFeePaid, nonce)` event arguments. -/
structure BridgeArgs where
  fromAddr : Nat
  toOnOtherChain : Nat
  amountIn : Nat
  amountOut : Nat
  pforkFeePaid : Nat
  nonce : Nat
deriving DecidableEq

/-- External-world outcomes one `relayBridgeOut` call can observe:
whether `RELAYER_PRIVATE_KEY` is set, what `getBalance` returns (`none`
models an RPC exception), what `nativeFeeWei()` returns (`none` models an
exception), and the submission outcome (`none` = `fulfillBridgeIn` send
threw; `some none` = `tx.wait()` threw or returned a null receipt;
`some (some b)` = a receipt whose `status === 1` iff `b`). -/
structure RelayEnv where
  hasRelayerKey : Bool
  getBalance : Option Nat
  nativeFeeWei : Option Nat
  submit : Option (Option Bool)
deriving DecidableEq

/-- `processedMessages.add` — `Set` semantics on the process-local
DeliveryRecord. -/
def processedInsert (st : List Nat) (x : Nat) : List Nat :=
  if x ∈ st then st else x :: st

/-- The message identifier the relayer derives for an event
(`computeMessageId(NETWORKS[src].chainId, NETWORKS[dst].chainId,
CONTRACTS[src].FERRY, nonce, from, toOnOtherChain, amountOut)`). -/
def relayMessageId (keccak : List Nat → Nat) (src dst : Network) (args : BridgeArgs) : Nat :=
  computeMessageId7 keccak (chainIdOf src) (chainIdOf dst) (ferryOf src)
    args.nonce args.fromAddr args.toOnOtherChain args.amountOut

/-- One `relayBridgeOut` call (replit.md relayer source, lines 241–324).
Returns the new `processedMessages` set and whether a `fulfillBridgeIn`
submission was attempted. The enclosing try/catch means an RPC exception
leaves the set unchanged and never escapes. -/
def relayBridgeOut (keccak : List Nat → Nat) (src dst : Network)
    (args : BridgeArgs) (env : RelayEnv) (st : List Nat) : List Nat × Bool :=
  let messageId := relayMessageId keccak src dst args
  if messageId ∈ st then (st, false)
  else if ¬env.hasRelayerKey then (processedInsert st messageId, false)
  else
    match env.getBalance with
    | none => (st, false)
    | some balance =>
      if balance = 0 then (processedInsert st messageId, false)
      else
        match env.nativeFeeWei with
        | none => (st, false)
        | some nativeFee =>
          if balance < nativeFee then (processedInsert st messageId, false)
          else
            match env.submit with
            | none => (st, true)
            | some none => (st, true)
            | some (some status1) =>
              if status1 then (processedInsert st messageId, true) else (st, true)

/-- What one poll tick observes for one chain: the current block height
and the result of `queryFilter` (`none` models the RPC call throwing),
each returned event paired with the environment its `relayBridgeOut`
call observes. -/
structure ChainTickEnv where
  height : Nat
  queryResult : Option (List (BridgeArgs × RelayEnv))

/-- The per-event loop body of `pollBridges`: fold `relayBridgeOut` over the
batch of decoded events. -/
def processEvents (keccak : List Nat → Nat) (src dst : Network)
    (evs : List (BridgeArgs × RelayEnv)) (st : List Nat) : List Nat :=
  evs.foldl (fun acc ev => (relayBridgeOut keccak src dst ev.1 ev.2 acc).1) st

/-- One chain's slice of a `pollBridges` tick (replit.md relayer source,
lines 336–381): if the height advanced, scan
`[max(lastSeenBlock, height − 100), height]`, process the batch, and only
then set `lastSeenBlock := height`; a `queryFilter` exception aborts before
the advancement. Returns (new lastSeenBlock, new processed set, the scan
range used, if any). Block numbers are `Nat`; since `lastSeenBlock ≥ 0`,
`max last (height - 100)` with truncated subtraction agrees with the
source's `Math.max(lastBlock, height - 100)`. -/
def chainTick (keccak : List Nat → Nat) (src dst : Network) (last : Nat)
    (env : ChainTickEnv) (st : List Nat) : Nat × List Nat × Option (Nat × Nat) :=
  if env.height > last then
    let fromBlock := max last (env.height - 100)
    match env.queryResult with
    | none => (last, st, some (fromBlock, env.height))
    | some evs => (env.height, processEvents keccak src dst evs st, some (fromBlock, env.height))
  else (last, st, none)

/-! ## Replay-guard storage (src/unnamed/part_000 storage source, src/shared/schema.ts) -/

/-- `InsertSignedNftTransaction` — the caller-supplied columns. -/
structure InsertSignedNftTransaction where
  txHash : Nat
  logIndex : Nat
  sourceChain : Nat
  bridger : Nat
  messageId : Nat
  amount : Nat
deriving DecidableEq

/-- `SignedNftTransaction` — a stored row: the insert plus the generated
`id` and `signedAt`. -/
structure SignedNftTransaction extends InsertSignedNftTransaction where
  id : Nat
  signedAt : Nat
deriving DecidableEq

/-- The `${txHash}-${logIndex}-${sourceChain}` key of `MemStorage`. -/
abbrev TripleKey := Nat × Nat × Nat

/-- `MemStorage.signedNftTransactions` — a JS `Map` as an association list. -/
abbrev MemState := List (TripleKey × SignedNftTransaction)

/-- JS `Map.set`: replace the entry at the key if present, else append. -/
def mapSet (st : MemState) (k : TripleKey) (v : SignedNftTransaction) : MemState :=
  match st with
  | [] => [(k, v)]
  | (k', v') :: rest => if k' = k then (k, v) :: rest else (k', v') :: mapSet rest k v

/-- JS `Map.get`. -/
def mapLookup : MemState → TripleKey → Option SignedNftTransaction
  | [], _ => none
  | (k', v') :: rest, k => if k' = k then some v' else mapLookup rest k

theorem mapLookup_mapSet_self (st : MemState) (k : TripleKey) (v : SignedNftTransaction) :
    mapLookup (mapSet st k v) k = some v := by
  induction st with
  | nil => simp [mapSet, mapLookup]
  | cons hd tl ih =>
    obtain ⟨k', v'⟩ := hd
    by_cases h : k' = k <;> simp [mapSet, mapLookup, h, ih]

/-- `MemStorage.checkNftTransactionSigned` (src/unnamed/part_000, lines 85–88):
`Map.has` on the triple key. -/
def memCheckNftTransactionSigned (st : MemState) (txHash logIndex sourceChain : Nat) : Bool :=
  (mapLookup st (txHash, logIndex, sourceChain)).isSome

/-- `MemStorage.recordNftTransactionSigned` (src/unnamed/part_000, lines
90–97): build the row from the insert plus a fresh `randomUUID()` (`uuid`)
and `Date.now()/1000` (`now`), and `Map.set` it under the triple key.
It never rejects. -/
def memRecordNftTransactionSigned (uuid now : Nat) (st : MemState)
    (t : InsertSignedNftTransaction) : MemState × SignedNftTransaction :=
  let row : SignedNftTransaction := { t with id := uuid, signedAt := now }
  (mapSet st (t.txHash, t.logIndex, t.sourceChain) row, row)

/-- Modelled from the spec and src/shared/schema.ts lines 12–23: the
`signed_nft_transactions` table declares
`unique().on(table.txHash, table.logIndex, table.sourceChain)`; a Postgres
`INSERT` into a table with that constraint errors with a unique violation
when a row with the same triple already exists, else appends the row.
(The SQL file under migrations/ predates the constraint and lacks it; this
definition follows the declared Drizzle schema.) -/
def pgRecordNftTransactionSigned (uuid now : Nat) (tbl : List SignedNftTransaction)
    (t : InsertSignedNftTransaction) :
    Except Unit (List SignedNftTransaction × SignedNftTransaction) :=
  if tbl.any (fun r => r.txHash = t.txHash ∧ r.logIndex = t.logIndex ∧
      r.sourceChain = t.sourceChain) then
    .error ()
  else
    let row : SignedNftTransaction := { t with id := uuid, signedAt := now }
    .ok (tbl ++ [row], row)

/-! ## Attestation endpoint (src/unnamed/part_000, `registerRoutes`, lines 163–347) -/

/-- The two `JsonRpcProvider`s of the routes file. -/
inductive Provider where
  | eth
  | neox
deriving DecidableEq

/-- Server configuration and per-request generated values: whether
`NFT_SIGNER_PRIVATE_KEY` is set, the `NFT_CONTRACTS` table (env-variable
driven, `0` = the zero-address default), and the `randomUUID()` /
`Date.now()` values the storage write consumes. -/
structure ServerEnv where
  signerConfigured : Bool
  ethNftContract : Nat
  neoxNftContract : Nat
  freshId : Nat
  now : Nat

/-- A log entry successfully parsed by
`ferryContract.interface.parseLog`: the event name and its decoded args. -/
structure ParsedLog where
  name : String
  args : BridgeArgs
deriving DecidableEq

/-- One receipt log entry: emitting address, its `index`, and the result of
`parseLog` (`none` models a parse failure, caught and skipped). -/
structure LogEntry where
  address : Nat
  index : Nat
  parsed : Option ParsedLog
deriving DecidableEq

/-- A transaction receipt: `receipt.from` (nullable), `receipt.blockNumber`,
`receipt.logs`. -/
structure Receipt where
  fromAddr : Option Nat
  blockNumber : Nat
  logs : List LogEntry
deriving DecidableEq

/-- A block, of which only `block.timestamp` is consumed. -/
structure Block where
  timestamp : Nat
deriving DecidableEq

/-- The ledger RPC collaborator: `getTransactionReceipt` and `getBlock`
per provider (`none` = null result). -/
structure ChainWorld where
  getTransactionReceipt : Provider → Nat → Option Receipt
  getBlock : Provider → Nat → Option Block

/-- The request body `{messageId, bridger, amount, timestamp, sourceChain,
destChain, txHash}`; `none` models an absent (or JS-falsy empty-string)
field. For the numeric fields `timestamp`, `sourceChain`, `destChain` a
present `0` is also falsy in the source's `!field` presence check, which
the model tests separately. -/
structure AttestReq where
  messageId : Option Nat
  bridger : Option Nat
  amount : Option Nat
  timestamp : Option Nat
  sourceChain : Option Nat
  destChain : Option Nat
  txHash : Option Nat

/-- The rejection taxonomy of the endpoint, one constructor per
early-return path. -/
inductive RejectCode where
  | missingFields
  | signerNotConfigured
  | nftNotDeployed
  | txNotFound
  | senderMismatch
  | blockNotFound
  | timestampMismatch
  | destChainMismatch
  | noMatchingEvent
  | alreadyAttested
deriving DecidableEq

/-- HTTP status the source returns for each rejection. -/
def statusOf : RejectCode → Nat
  | .missingFields => 400
  | .signerNotConfigured => 503
  | .nftNotDeployed => 503
  | .txNotFound => 404
  | .senderMismatch => 403
  | .blockNotFound => 404
  | .timestampMismatch => 400
  | .destChainMismatch => 400
  | .noMatchingEvent => 404
  | .alreadyAttested => 409

/-- `sourceChain === 1 ? ethProvider : neoxProvider`. -/
def providerFor (sourceChain : Nat) : Provider :=
  if sourceChain = 1 then .eth else .neox

/-- `sourceChain === 1 ? FERRY_CONTRACTS.ETH : FERRY_CONTRACTS.NEOX`. -/
def ferryAddressFor (sourceChain : Nat) : Nat :=
  if sourceChain = 1 then ETH_FERRY else NEOX_FERRY

/-- `sourceChain === 1 ? NFT_CONTRACTS.ETH : NFT_CONTRACTS.NEOX`. -/
def nftContractFor (env : ServerEnv) (sourceChain : Nat) : Nat :=
  if sourceChain = 1 then env.ethNftContract else env.neoxNftContract

/-- `const derivedDestChain = sourceChain === 1 ? 47763 : 1`. -/
def derivedDestChainFor (sourceChain : Nat) : Nat :=
  if sourceChain = 1 then 47763 else 1

/-- The `timeDiff > 60` rejection test on the block timestamp vs the
claimed timestamp (`Math.abs(blockTimestamp - timestamp) > 60`). -/
def timestampRejects (blockTimestamp timestamp : Nat) : Bool :=
  ((blockTimestamp : Int) - (timestamp : Int)).natAbs > 60

/-- The data the verification pipeline hands to the signing/persistence
step: the unwrapped claim fields, the validated event's args and its
captured log index. -/
structure Validated where
  messageId : Nat
  bridger : Nat
  amount : Nat
  timestamp : Nat
  sourceChain : Nat
  destChain : Nat
  txHash : Nat
  logIndex : Nat
  args : BridgeArgs
deriving DecidableEq

/-- The log-entry scan (src/unnamed/part_000, lines 229–272): for each
filtered entry, parse (a throw is caught and the loop continues), require
the event name, require `args.from` to equal the claimed bridger, then
compare `amountOut` with the claimed amount and the recomputed 9-field
message id with the claimed one, continuing on mismatch; the first entry
passing both checks is returned with its `index`. -/
def findValidatedEvent (keccak : List Nat → Nat)
    (bridger amount messageId sourceChain destChain ferryAddress : Nat) :
    List LogEntry → Option (BridgeArgs × Nat)
  | [] => none
  | logEntry :: rest =>
    match logEntry.parsed with
    | none => findValidatedEvent keccak bridger amount messageId sourceChain destChain
        ferryAddress rest
    | some parsed =>
      if parsed.name = "BridgeOutRequested" ∧ parsed.args.fromAddr = bridger then
        if parsed.args.amountOut ≠ amount then
          findValidatedEvent keccak bridger amount messageId sourceChain destChain
            ferryAddress rest
        else if computeMessageId9 keccak sourceChain destChain ferryAddress
            parsed.args.nonce parsed.args.fromAddr parsed.args.toOnOtherChain
            parsed.args.amountIn parsed.args.amountOut parsed.args.pforkFeePaid
            ≠ messageId then
          findValidatedEvent keccak bridger amount messageId sourceChain destChain
            ferryAddress rest
        else some (parsed.args, logEntry.index)
      else
        findValidatedEvent keccak bridger amount messageId sourceChain destChain
          ferryAddress rest

/-- The verification pipeline of `POST /api/nft/attestation`
(src/unnamed/part_000, lines 163–287), every early-return path in source
order: field presence (JS falsiness), signer configuration, NFT contract
deployment, receipt fetch, sender comparison, block fetch, timestamp
tolerance, destination-chain derivation, log scan, replay check. Reads the
storage, never writes it. -/
def verifyAttestation (keccak : List Nat → Nat) (env : ServerEnv)
    (world : ChainWorld) (req : AttestReq) (st : MemState) :
    Except RejectCode Validated :=
  match req.messageId, req.bridger, req.amount, req.timestamp, req.sourceChain,
      req.destChain, req.txHash with
  | some messageId, some bridger, some amount, some timestamp, some sourceChain,
      some destChain, some txHash =>
    if timestamp = 0 ∨ sourceChain = 0 ∨ destChain = 0 then .error .missingFields
    else if ¬env.signerConfigured then .error .signerNotConfigured
    else if nftContractFor env sourceChain = 0 then .error .nftNotDeployed
    else
      match world.getTransactionReceipt (providerFor sourceChain) txHash with
      | none => .error .txNotFound
      | some receipt =>
        if receipt.fromAddr ≠ some bridger then .error .senderMismatch
        else
          match world.getBlock (providerFor sourceChain) receipt.blockNumber with
          | none => .error .blockNotFound
          | some block =>
            if timestampRejects block.timestamp timestamp then .error .timestampMismatch
            else
              let logs := receipt.logs.filter
                (fun l => l.address = ferryAddressFor sourceChain)
              if derivedDestChainFor sourceChain ≠ destChain then .error .destChainMismatch
              else
                match findValidatedEvent keccak bridger amount messageId sourceChain
                    destChain (ferryAddressFor sourceChain) logs with
                | none => .error .noMatchingEvent
                | some (args, validatedLogIndex) =>
                  if memCheckNftTransactionSigned st txHash validatedLogIndex sourceChain then
                    .error .alreadyAttested
                  else
                    .ok { messageId, bridger, amount, timestamp, sourceChain, destChain,
                          txHash, logIndex := validatedLogIndex, args }
  | _, _, _, _, _, _, _ => .error .missingFields

/-- The EIP-712 typed data the endpoint signs on success: the
`QuantumSignatureNFT` domain and the `MintRequest` message built from the
raw claimed fields. A signature is modelled by the typed data it binds. -/
structure SignedPayload where
  domainName : String
  domainVersion : String
  domainChainId : Nat
  verifyingContract : Nat
  messageId : Nat
  bridger : Nat
  amount : Nat
  timestamp : Nat
  sourceChain : Nat
  destChain : Nat
deriving DecidableEq

/-- The endpoint's response: a signature, or a rejection with no signature. -/
inductive AttestResult where
  | ok (signature : SignedPayload)
  | err (code : RejectCode)
deriving DecidableEq

/-- Whether a result is a rejection. -/
def AttestResult.isErr : AttestResult → Bool
  | .ok _ => false
  | .err _ => true

/-- The whole `POST /api/nft/attestation` handler: run the verification
pipeline; on rejection return the error with the storage untouched; only
after every check passes, sign the typed message and persist the
attestation record via `storage.recordNftTransactionSigned`
(src/unnamed/part_000, lines 296–342). -/
def attestation (keccak : List Nat → Nat) (env : ServerEnv) (world : ChainWorld)
    (req : AttestReq) (st : MemState) : AttestResult × MemState :=
  match verifyAttestation keccak env world req st with
  | .error c => (.err c, st)
  | .ok v =>
    let payload : SignedPayload :=
      { domainName := "QuantumSignatureNFT", domainVersion := "1",
        domainChainId := v.sourceChain,
        verifyingContract := nftContractFor env v.sourceChain,
        messageId := v.messageId, bridger := v.bridger, amount := v.amount,
        timestamp := v.timestamp, sourceChain := v.sourceChain,
        destChain := v.destChain }
    let st' := (memRecordNftTransactionSigned env.freshId env.now st
      { txHash := v.txHash, logIndex := v.logIndex, sourceChain := v.sourceChain,
        bridger := v.bridger, messageId := v.messageId, amount := v.amount }).1
    (.ok payload, st')

/-! ## Helper lemmas -/

theorem mem_processedInsert_self (st : List Nat) (x : Nat) : x ∈ processedInsert st x := by
  unfold processedInsert
  split
  · assumption
  · exact List.mem_cons_self x st

theorem relayBridgeOut_skips_processed (keccak : List Nat → Nat) (src dst : Network)
    (args : BridgeArgs) (env : RelayEnv) (st : List Nat)
    (h : relayMessageId keccak src dst args ∈ st) :
    relayBridgeOut keccak src dst args env st = (st, false) := by
  unfold relayBridgeOut
  simp [h]

/-! ## Claims -/

/-- C1 (counterexample): at a concrete transfer event (nonce 7, amountIn
100, amountOut 99, fee 1, ETH → Neo X), the identifier the attestation
route recomputes (9-field `computeMessageId`) differs from the identifier
the relay engine derives for the same event (7-field `computeMessageId`):
the claimed agreement between the two fails. -/
theorem attest_id_ne_relay_id_at_sample :
    computeMessageId9 byteFold 1 47763 ETH_FERRY 7 0xAAA 0xBBB 100 99 1 ≠
      computeMessageId7 byteFold 1 47763 ETH_FERRY 7 0xAAA 0xBBB 99 := by
  decide

/-- C1 (amended): the attestation verifier's recomputed identifier agrees
with the client-side emission function (`bridgeStorage.computeMessageId`,
the same 9-field tuple) on every input, but its hash input never equals the
relay engine's: the relay packs 7 fields (128 bytes) while the attestation
route packs 9 fields (192 bytes), so relay deduplication and attestation
verification do not share one canonical identifier. -/
theorem attestation_id_agrees_with_client_not_relay (keccak : List Nat → Nat)
    (s d f n a b i o fee : Nat) :
    computeMessageId9 keccak s d f n a b i o fee =
        computeMessageIdClient keccak s d f n a b i o fee ∧
      solidityPacked9 s d f n a b i o fee ≠ solidityPacked7 s d f n a b o := by
  refine ⟨rfl, fun h => ?_⟩
  have hl := congrArg List.length h
  rw [solidityPacked9_length, solidityPacked7_length] at hl
  norm_num at hl

/-- C6: the relay message identity function is deterministic (equal inputs
give equal identifiers) and, for any collision-free hash, injective on
well-formed field tuples — changing any one field changes the output. -/
theorem computeMessageId_deterministic_and_injective
    (keccak : List Nat → Nat) (hk : Function.Injective keccak)
    (s d f n a b m s' d' f' n' a' b' m' : Nat)
    (h1 : wf7 s d f n a b m) (h2 : wf7 s' d' f' n' a' b' m') :
    computeMessageId7 keccak s d f n a b m = computeMessageId7 keccak s d f n a b m ∧
      ((s, d, f, n, a, b, m) ≠ (s', d', f', n', a', b', m') →
        computeMessageId7 keccak s d f n a b m ≠
          computeMessageId7 keccak s' d' f' n' a' b' m') := by
  refine ⟨rfl, fun hne heq => hne ?_⟩
  simp only [computeMessageId7] at heq
  obtain ⟨e1, e2, e3, e4, e5, e6, e7⟩ := solidityPacked7_inj h1 h2 (hk heq)
  simp [e1, e2, e3, e4, e5, e6, e7]

/-- Witness for C6 at a concrete pair of tuples differing only in the
nonce, with the injective list encoding standing in for keccak256. -/
theorem computeMessageId_deterministic_and_injective_witness :
    wf7 1 47763 ETH_FERRY 7 0xAAA 0xBBB 99 ∧ wf7 1 47763 ETH_FERRY 8 0xAAA 0xBBB 99 ∧
      ((1, 47763, ETH_FERRY, 7, 0xAAA, 0xBBB, 99) ≠
        ((1 : Nat), (47763 : Nat), ETH_FERRY, (8 : Nat), (0xAAA : Nat), (0xBBB : Nat),
          (99 : Nat))) ∧
      computeMessageId7 listEnc 1 47763 ETH_FERRY 7 0xAAA 0xBBB 99 ≠
        computeMessageId7 listEnc 1 47763 ETH_FERRY 8 0xAAA 0xBBB 99 := by
  refine ⟨by decide, by decide, by decide, ?_⟩
  exact (computeMessageId_deterministic_and_injective listEnc listEnc_injective
    1 47763 ETH_FERRY 7 0xAAA 0xBBB 99 1 47763 ETH_FERRY 8 0xAAA 0xBBB 99
    (by decide) (by decide)).2 (by decide)

/-- C4 (counterexample): a fee-shortfall tick (balance 5 < fee 10) marks
the identifier seen, so on a later tick with the wallet funded (balance
1000000 ≥ fee 10) the identical event is skipped and no submission is
attempted — refuting the claim that it is retried with a submission
attempted once funded. -/
theorem relay_fee_shortfall_no_retry_at_sample :
    (relayBridgeOut byteFold .eth .neox ⟨0xAAA, 0xBBB, 100, 99, 1, 7⟩
        ⟨true, some 1000000, some 10, some (some true)⟩
        (relayBridgeOut byteFold .eth .neox ⟨0xAAA, 0xBBB, 100, 99, 1, 7⟩
          ⟨true, some 5, some 10, some (some true)⟩ []).1).2 = false := by
  decide

/-- C4 (amended): when the relay wallet's balance is below the required
native fee, the event is skipped with no submission attempted, but its
identifier is added to the DeliveryRecord set, so the identical event is
never retried within the process lifetime: any later tick — whatever its
environment, funded or not — skips it without a submission attempt. -/
theorem relay_fee_shortfall_marked_seen_not_retried
    (keccak : List Nat → Nat) (src dst : Network) (args : BridgeArgs)
    (env1 env2 : RelayEnv) (st : List Nat) (bal fee : Nat)
    (hmem : relayMessageId keccak src dst args ∉ st)
    (hkey : env1.hasRelayerKey = true)
    (hbal : env1.getBalance = some bal) (hbal0 : bal ≠ 0)
    (hfee : env1.nativeFeeWei = some fee) (hlt : bal < fee) :
    (relayBridgeOut keccak src dst args env1 st).2 = false ∧
      relayMessageId keccak src dst args ∈ (relayBridgeOut keccak src dst args env1 st).1 ∧
      relayBridgeOut keccak src dst args env2 (relayBridgeOut keccak src dst args env1 st).1 =
        ((relayBridgeOut keccak src dst args env1 st).1, false) := by
  have hstep : relayBridgeOut keccak src dst args env1 st =
      (processedInsert st (relayMessageId keccak src dst args), false) := by
    unfold relayBridgeOut
    simp [hmem, hkey, hbal, hbal0, hfee, hlt]
  refine ⟨by rw [hstep], ?_, ?_⟩
  · rw [hstep]
    exact mem_processedInsert_self st _
  · exact relayBridgeOut_skips_processed keccak src dst args env2 _
      (by rw [hstep]; exact mem_processedInsert_self st _)

/-- Witness for C4 (amended) at the concrete fee-shortfall environment. -/
theorem relay_fee_shortfall_marked_seen_not_retried_witness :
    (relayBridgeOut byteFold .eth .neox ⟨0xAAA, 0xBBB, 100, 99, 1, 7⟩
        ⟨true, some 5, some 10, some (some true)⟩ []).2 = false ∧
      relayMessageId byteFold .eth .neox ⟨0xAAA, 0xBBB, 100, 99, 1, 7⟩ ∈
        (relayBridgeOut byteFold .eth .neox ⟨0xAAA, 0xBBB, 100, 99, 1, 7⟩
          ⟨true, some 5, some 10, some (some true)⟩ []).1 ∧
      relayBridgeOut byteFold .eth .neox ⟨0xAAA, 0xBBB, 100, 99, 1, 7⟩
          ⟨true, some 1000000, some 10, some (some true)⟩
          (relayBridgeOut byteFold .eth .neox ⟨0xAAA, 0xBBB, 100, 99, 1, 7⟩
            ⟨true, some 5, some 10, some (some true)⟩ []).1 =
        ((relayBridgeOut byteFold .eth .neox ⟨0xAAA, 0xBBB, 100, 99, 1, 7⟩
          ⟨true, some 5, some 10, some (some true)⟩ []).1, false) :=
  relay_fee_shortfall_marked_seen_not_retried byteFold .eth .neox
    ⟨0xAAA, 0xBBB, 100, 99, 1, 7⟩ ⟨true, some 5, some 10, some (some true)⟩
    ⟨true, some 1000000, some 10, some (some true)⟩ [] 5 10
    (by decide) rfl rfl (by decide) rfl (by decide)

/-- C5 (counterexample): when the first fulfillment submission's receipt
reports failure (`status !== 1`), the identifier is not recorded, so
replaying the same event makes a second submission attempt — two attempts,
not exactly one, refuting the claim as stated. -/
theorem relay_replay_second_attempt_on_failed_receipt :
    ((relayBridgeOut byteFold .eth .neox ⟨0xAAA, 0xBBB, 100, 99, 1, 7⟩
        ⟨true, some 100, some 1, some (some false)⟩ []).2 = true) ∧
      ((relayBridgeOut byteFold .eth .neox ⟨0xAAA, 0xBBB, 100, 99, 1, 7⟩
        ⟨true, some 100, some 1, some (some false)⟩
        (relayBridgeOut byteFold .eth .neox ⟨0xAAA, 0xBBB, 100, 99, 1, 7⟩
          ⟨true, some 100, some 1, some (some false)⟩ []).1).2 = true) := by
  constructor <;> decide

/-- C5 (amended): if the first processing of an event submits and its
receipt reports success, replaying the identical event within the process
lifetime results in exactly one submission attempt: the identifier is in
the DeliveryRecord set, so the second processing — under any environment —
is skipped with no attempt and no state change. -/
theorem relay_idempotent_after_successful_receipt
    (keccak : List Nat → Nat) (src dst : Network) (args : BridgeArgs)
    (env1 : RelayEnv) (st : List Nat) (bal fee : Nat)
    (hmem : relayMessageId keccak src dst args ∉ st)
    (hkey : env1.hasRelayerKey = true)
    (hbal : env1.getBalance = some bal) (hbal0 : bal ≠ 0)
    (hfee : env1.nativeFeeWei = some fee) (hble : ¬bal < fee)
    (hsub : env1.submit = some (some true)) :
    (relayBridgeOut keccak src dst args env1 st).2 = true ∧
      relayMessageId keccak src dst args ∈ (relayBridgeOut keccak src dst args env1 st).1 ∧
      ∀ env2 : RelayEnv,
        relayBridgeOut keccak src dst args env2 (relayBridgeOut keccak src dst args env1 st).1 =
          ((relayBridgeOut keccak src dst args env1 st).1, false) := by
  have hstep : relayBridgeOut keccak src dst args env1 st =
      (processedInsert st (relayMessageId keccak src dst args), true) := by
    unfold relayBridgeOut
    simp [hmem, hkey, hbal, hbal0, hfee, hble, hsub]
  refine ⟨by rw [hstep], by rw [hstep]; exact mem_processedInsert_self st _, fun env2 => ?_⟩
  exact relayBridgeOut_skips_processed keccak src dst args env2 _
    (by rw [hstep]; exact mem_processedInsert_self st _)

/-- Witness for C5 (amended) at a concrete successful first submission and
a concrete second environment. -/
theorem relay_idempotent_after_successful_receipt_witness :
    (relayBridgeOut byteFold .eth .neox ⟨0xAAA, 0xBBB, 100, 99, 1, 7⟩
        ⟨true, some 100, some 1, some (some true)⟩ []).2 = true ∧
      relayMessageId byteFold .eth .neox ⟨0xAAA, 0xBBB, 100, 99, 1, 7⟩ ∈
        (relayBridgeOut byteFold .eth .neox ⟨0xAAA, 0xBBB, 100, 99, 1, 7⟩
          ⟨true, some 100, some 1, some (some true)⟩ []).1 ∧
      ∀ env2 : RelayEnv,
        relayBridgeOut byteFold .eth .neox ⟨0xAAA, 0xBBB, 100, 99, 1, 7⟩ env2
            (relayBridgeOut byteFold .eth .neox ⟨0xAAA, 0xBBB, 100, 99, 1, 7⟩
              ⟨true, some 100, some 1, some (some true)⟩ []).1 =
          ((relayBridgeOut byteFold .eth .neox ⟨0xAAA, 0xBBB, 100, 99, 1, 7⟩
            ⟨true, some 100, some 1, some (some true)⟩ []).1, false) :=
  relay_idempotent_after_successful_receipt byteFold .eth .neox
    ⟨0xAAA, 0xBBB, 100, 99, 1, 7⟩ ⟨true, some 100, some 1, some (some true)⟩ [] 100 1
    (by decide) rfl rfl (by decide) rfl (by decide) rfl

/-- C7: once a fulfillment submission is reached (identifier unseen, key
configured, positive balance covering the fee), a submission is attempted,
and the identifier is added to the DeliveryRecord set if and only if the
awaited receipt reports success; on any other outcome (failed receipt,
null receipt, or a throw while awaiting) the set is unchanged, leaving the
event eligible for retry on a later tick. -/
theorem deliveryRecord_added_iff_receipt_success
    (keccak : List Nat → Nat) (src dst : Network) (args : BridgeArgs)
    (env : RelayEnv) (st : List Nat) (bal fee : Nat)
    (hmem : relayMessageId keccak src dst args ∉ st)
    (hkey : env.hasRelayerKey = true)
    (hbal : env.getBalance = some bal) (hbal0 : bal ≠ 0)
    (hfee : env.nativeFeeWei = some fee) (hble : ¬bal < fee) :
    (relayBridgeOut keccak src dst args env st).2 = true ∧
      (relayMessageId keccak src dst args ∈ (relayBridgeOut keccak src dst args env st).1 ↔
        env.submit = some (some true)) ∧
      (env.submit ≠ some (some true) → (relayBridgeOut keccak src dst args env st).1 = st) := by
  unfold relayBridgeOut
  simp only [hkey, hbal, hfee]
  rcases hsub : env.submit with _ | osub
  · simp [hmem, hbal0, hble, hsub]
  · rcases osub with _ | b
    · simp [hmem, hbal0, hble]
    · rcases b with _ | _
      · simp [hmem, hbal0, hble]
      · simp [hmem, hbal0, hble, mem_processedInsert_self]

/-- Witness for C7 at a concrete failed-receipt submission. -/
theorem deliveryRecord_added_iff_receipt_success_witness :
    (relayBridgeOut byteFold .eth .neox ⟨0xAAA, 0xBBB, 100, 99, 1, 7⟩
        ⟨true, some 100, some 1, some (some false)⟩ []).2 = true ∧
      (relayMessageId byteFold .eth .neox ⟨0xAAA, 0xBBB, 100, 99, 1, 7⟩ ∈
          (relayBridgeOut byteFold .eth .neox ⟨0xAAA, 0xBBB, 100, 99, 1, 7⟩
            ⟨true, some 100, some 1, some (some false)⟩ []).1 ↔
        (⟨true, some 100, some 1, some (some false)⟩ : RelayEnv).submit = some (some true)) ∧
      ((⟨true, some 100, some 1, some (some false)⟩ : RelayEnv).submit ≠ some (some true) →
        (relayBridgeOut byteFold .eth .neox ⟨0xAAA, 0xBBB, 100, 99, 1, 7⟩
          ⟨true, some 100, some 1, some (some false)⟩ []).1 = []) :=
  deliveryRecord_added_iff_receipt_success byteFold .eth .neox
    ⟨0xAAA, 0xBBB, 100, 99, 1, 7⟩ ⟨true, some 100, some 1, some (some false)⟩ [] 100 1
    (by decide) rfl rfl (by decide) rfl (by decide)

/-- C8: on a tick where a chain's height has advanced past `lastSeenBlock`,
the scan range used is exactly `[max(lastSeenBlock, height − 100), height]`,
and `lastSeenBlock` is advanced to the current height only after the whole
event batch is processed — for every batch, regardless of per-event
outcomes — while a batch-fetch failure leaves it unchanged. -/
theorem relay_scan_window_and_advancement
    (keccak : List Nat → Nat) (src dst : Network) (last : Nat)
    (env : ChainTickEnv) (st : List Nat) (h : last < env.height) :
    (chainTick keccak src dst last env st).2.2 =
        some (max last (env.height - 100), env.height) ∧
      (∀ evs, env.queryResult = some evs →
        (chainTick keccak src dst last env st).1 = env.height) ∧
      (env.queryResult = none → (chainTick keccak src dst last env st).1 = last) := by
  unfold chainTick
  rcases hq : env.queryResult with _ | evs <;> simp [h, hq]

/-- Witness for C8 at a concrete tick: lastSeen 50, height 120, one event
in the batch. -/
theorem relay_scan_window_and_advancement_witness :
    (50 : Nat) < 120 ∧
      ((chainTick byteFold .eth .neox 50
          ⟨120, some [(⟨0xAAA, 0xBBB, 100, 99, 1, 7⟩,
            ⟨true, some 100, some 1, some (some true)⟩)]⟩ []).2.2 =
        some (max 50 (120 - 100), 120) ∧
      (∀ evs, (⟨120, some [(⟨0xAAA, 0xBBB, 100, 99, 1, 7⟩,
            ⟨true, some 100, some 1, some (some true)⟩)]⟩ : ChainTickEnv).queryResult = some evs →
        (chainTick byteFold .eth .neox 50
          ⟨120, some [(⟨0xAAA, 0xBBB, 100, 99, 1, 7⟩,
            ⟨true, some 100, some 1, some (some true)⟩)]⟩ []).1 = 120) ∧
      ((⟨120, some [(⟨0xAAA, 0xBBB, 100, 99, 1, 7⟩,
            ⟨true, some 100, some 1, some (some true)⟩)]⟩ : ChainTickEnv).queryResult = none →
        (chainTick byteFold .eth .neox 50
          ⟨120, some [(⟨0xAAA, 0xBBB, 100, 99, 1, 7⟩,
            ⟨true, some 100, some 1, some (some true)⟩)]⟩ []).1 = 50)) :=
  ⟨by decide, relay_scan_window_and_advancement byteFold .eth .neox 50
    ⟨120, some [(⟨0xAAA, 0xBBB, 100, 99, 1, 7⟩,
      ⟨true, some 100, some 1, some (some true)⟩)]⟩ [] (by decide)⟩

/-- C3: every rejection path of the attestation endpoint returns no
signature (the `err` result carries only a rejection code) and persists no
attestation record — the storage state is returned unchanged; the signing
and persistence step runs only when the whole verification pipeline
succeeds. -/
theorem attestation_rejection_is_effect_free
    (keccak : List Nat → Nat) (env : ServerEnv) (world : ChainWorld)
    (req : AttestReq) (st : MemState)
    (h : ((attestation keccak env world req st).1).isErr = true) :
    (attestation keccak env world req st).2 = st := by
  unfold attestation at h ⊢
  rcases hv : verifyAttestation keccak env world req st with c | v
  · simp [hv]
  · rw [hv] at h
    simp [AttestResult.isErr] at h

/-- Witness for C3 at a concrete rejected request (all fields missing)
against a nonempty storage state. -/
theorem attestation_rejection_is_effect_free_witness :
    ((attestation byteFold ⟨true, 5, 7, 42, 1000⟩
        ⟨fun _ _ => none, fun _ _ => none⟩ ⟨none, none, none, none, none, none, none⟩
        [((1, 2, 3), ⟨⟨1, 2, 3, 4, 5, 6⟩, 9, 10⟩)]).1).isErr = true ∧
      (attestation byteFold ⟨true, 5, 7, 42, 1000⟩
        ⟨fun _ _ => none, fun _ _ => none⟩ ⟨none, none, none, none, none, none, none⟩
        [((1, 2, 3), ⟨⟨1, 2, 3, 4, 5, 6⟩, 9, 10⟩)]).2 =
        [((1, 2, 3), ⟨⟨1, 2, 3, 4, 5, 6⟩, 9, 10⟩)] :=
  ⟨by decide, attestation_rejection_is_effect_free byteFold ⟨true, 5, 7, 42, 1000⟩
    ⟨fun _ _ => none, fun _ _ => none⟩ ⟨none, none, none, none, none, none, none⟩
    [((1, 2, 3), ⟨⟨1, 2, 3, 4, 5, 6⟩, 9, 10⟩)] (by decide)⟩

/-- C9: with all earlier pipeline steps passing, a claimed timestamp whose
absolute difference from the block timestamp is exactly 60 seconds is
never rejected as a timestamp mismatch, while a difference of 61 seconds
(either direction, via the absolute value) is rejected as a timestamp
mismatch. -/
theorem timestamp_tolerance_boundary
    (keccak : List Nat → Nat) (env : ServerEnv) (world : ChainWorld)
    (req : AttestReq) (st : MemState) (m b a ts sc dc txh : Nat)
    (receipt : Receipt) (blk : Block)
    (hm : req.messageId = some m) (hb : req.bridger = some b)
    (ha : req.amount = some a) (ht : req.timestamp = some ts)
    (hsc : req.sourceChain = some sc) (hdc : req.destChain = some dc)
    (hx : req.txHash = some txh)
    (hts : ts ≠ 0) (hsc0 : sc ≠ 0) (hdc0 : dc ≠ 0)
    (hsigner : env.signerConfigured = true)
    (hnft : nftContractFor env sc ≠ 0)
    (hrec : world.getTransactionReceipt (providerFor sc) txh = some receipt)
    (hfrom : receipt.fromAddr = some b)
    (hblk : world.getBlock (providerFor sc) receipt.blockNumber = some blk) :
    (((blk.timestamp : Int) - (ts : Int)).natAbs = 60 →
      verifyAttestation keccak env world req st ≠ .error .timestampMismatch) ∧
    (((blk.timestamp : Int) - (ts : Int)).natAbs = 61 →
      verifyAttestation keccak env world req st = .error .timestampMismatch) := by
  constructor
  · intro h60
    have hrej : timestampRejects blk.timestamp ts = false := by
      simp [timestampRejects, h60]
    simp only [verifyAttestation, hm, hb, ha, ht, hsc, hdc, hx]
    rw [if_neg (by simp [hts, hsc0, hdc0]), if_neg (by simp [hsigner]), if_neg hnft]
    simp only [hrec]
    rw [if_neg (by simp [hfrom])]
    simp only [hblk, hrej, Bool.false_eq_true, if_false]
    split
    · simp
    · split
      · simp
      · split <;> simp
  · intro h61
    have hrej : timestampRejects blk.timestamp ts = true := by
      simp [timestampRejects, h61]
    simp only [verifyAttestation, hm, hb, ha, ht, hsc, hdc, hx]
    rw [if_neg (by simp [hts, hsc0, hdc0]), if_neg (by simp [hsigner]), if_neg hnft]
    simp only [hrec]
    rw [if_neg (by simp [hfrom])]
    simp [hblk, hrej]

/-- Witness for C9 at a concrete claim whose block timestamp is 1061 and
claimed timestamp 1000 (difference 61). -/
theorem timestamp_tolerance_boundary_witness :
    verifyAttestation byteFold ⟨true, 5, 7, 42, 999⟩
        ⟨fun p h => if p = .eth ∧ h = 0xAB then some ⟨some 0xAAA, 3, []⟩ else none,
          fun p n => if p = .eth ∧ n = 3 then some ⟨1061⟩ else none⟩
        ⟨some 1, some 0xAAA, some 99, some 1000, some 1, some 47763, some 0xAB⟩ [] =
      .error .timestampMismatch :=
  (timestamp_tolerance_boundary byteFold ⟨true, 5, 7, 42, 999⟩
    ⟨fun p h => if p = .eth ∧ h = 0xAB then some ⟨some 0xAAA, 3, []⟩ else none,
      fun p n => if p = .eth ∧ n = 3 then some ⟨1061⟩ else none⟩
    ⟨some 1, some 0xAAA, some 99, some 1000, some 1, some 47763, some 0xAB⟩ []
    1 0xAAA 99 1000 1 47763 0xAB ⟨some 0xAAA, 3, []⟩ ⟨1061⟩
    rfl rfl rfl rfl rfl rfl rfl (by decide) (by decide) (by decide) rfl (by decide)
    (by decide) (by decide) (by decide)).2 (by decide)

/-- Server environment with the Neo X NFT contract configured and the
Ethereum one left at the zero-address default. -/
def sampleServerEnv : ServerEnv := ⟨true, 0, 7, 42, 1000⟩

/-- A ledger holding one Neo X transaction whose receipt carries a single
`BridgeOutRequested` log from the Neo X ferry contract. -/
def neoxSampleWorld : ChainWorld :=
  { getTransactionReceipt := fun p h =>
      if p = .neox ∧ h = 0xAB then
        some ⟨some 0xAAA, 3, [⟨NEOX_FERRY, 4,
          some ⟨"BridgeOutRequested", ⟨0xAAA, 0xBBB, 100, 99, 1, 7⟩⟩⟩]⟩
      else none,
    getBlock := fun p n => if p = .neox ∧ n = 3 then some ⟨1000⟩ else none }

/-- A claim carrying an arbitrary source chain id `sc`, whose message id is
the canonical 9-field hash derived for that `sc`. -/
def unrecognizedChainReq (sc : Nat) : AttestReq :=
  ⟨some (computeMessageId9 byteFold sc 1 NEOX_FERRY 7 0xAAA 0xBBB 100 99 1),
    some 0xAAA, some 99, some 1000, some sc, some 1, some 0xAB⟩

/-- C10: the source-chain dispatch is a binary test on `sourceChain === 1`:
for every source chain other than 1, the verifier selects the Neo X
provider, the Neo X ferry contract, and the Neo X NFT contract, and derives
the expected destination chain as 1; and a claim carrying an unrecognized
source chain id (any nonzero `sc ≠ 1`, not only 47763) is not rejected for
it — with a matching ledger it reaches a signature. -/
theorem sourceChain_dispatch_binary (sc : Nat) (h1 : sc ≠ 1) (h0 : sc ≠ 0) :
    providerFor sc = .neox ∧ ferryAddressFor sc = NEOX_FERRY ∧
      (∀ env : ServerEnv, nftContractFor env sc = env.neoxNftContract) ∧
      derivedDestChainFor sc = 1 ∧
      ((attestation byteFold sampleServerEnv neoxSampleWorld
        (unrecognizedChainReq sc) []).1).isErr = false := by
  refine ⟨by simp [providerFor, h1], by simp [ferryAddressFor, h1],
    fun env => by simp [nftContractFor, h1], by simp [derivedDestChainFor, h1], ?_⟩
  simp [attestation, verifyAttestation, unrecognizedChainReq, sampleServerEnv,
    neoxSampleWorld, providerFor, ferryAddressFor, nftContractFor,
    derivedDestChainFor, timestampRejects, findValidatedEvent,
    memCheckNftTransactionSigned, mapLookup, List.filter, h1, h0,
    AttestResult.isErr]

/-- Witness for C10 at the concrete unrecognized source chain id 999. -/
theorem sourceChain_dispatch_binary_witness :
    providerFor 999 = .neox ∧ ferryAddressFor 999 = NEOX_FERRY ∧
      (∀ env : ServerEnv, nftContractFor env 999 = env.neoxNftContract) ∧
      derivedDestChainFor 999 = 1 ∧
      ((attestation byteFold sampleServerEnv neoxSampleWorld
        (unrecognizedChainReq 999) []).1).isErr = false :=
  sourceChain_dispatch_binary 999 (by decide) (by decide)

/-- C2 (counterexample): after one successful `recordNftTransactionSigned`
call for a triple against the in-memory storage, a second call for the
same triple is not rejected — it succeeds and replaces the stored record
(the stored row is no longer the first call's row), refuting the claim
that a further record call is rejected with a duplicate error. -/
theorem mem_record_second_call_replaces :
    mapLookup (memRecordNftTransactionSigned 2 200
        (memRecordNftTransactionSigned 1 100 [] ⟨5, 6, 7, 8, 9, 10⟩).1
        ⟨5, 6, 7, 8, 9, 10⟩).1 (5, 6, 7) ≠
      some ((memRecordNftTransactionSigned 1 100 [] ⟨5, 6, 7, 8, 9, 10⟩).2) := by
  decide

/-- C2 (amended): the declared Postgres schema constraint does reject a
second insert for an existing (txHash, logIndex, sourceChain) triple with
a unique violation; but the in-memory storage's record call never rejects:
a repeated call for the same triple succeeds and replaces the stored
record with a fresh row (new id and signedAt) — while still keeping at
most one stored record per triple. -/
theorem replay_guard_pg_unique_mem_replaces :
    (∀ (uuid now : Nat) (tbl : List SignedNftTransaction)
        (t : InsertSignedNftTransaction) (r : SignedNftTransaction),
      r ∈ tbl → r.txHash = t.txHash → r.logIndex = t.logIndex →
      r.sourceChain = t.sourceChain →
      pgRecordNftTransactionSigned uuid now tbl t = .error ()) ∧
    (∀ (u1 n1 u2 n2 : Nat) (st : MemState) (t : InsertSignedNftTransaction),
      mapLookup (memRecordNftTransactionSigned u2 n2
          (memRecordNftTransactionSigned u1 n1 st t).1 t).1
          (t.txHash, t.logIndex, t.sourceChain) =
        some { t with id := u2, signedAt := n2 }) := by
  constructor
  · intro uuid now tbl t r hr h1 h2 h3
    unfold pgRecordNftTransactionSigned
    rw [if_pos]
    exact List.any_eq_true.mpr ⟨r, hr, by simp [h1, h2, h3]⟩
  · intro u1 n1 u2 n2 st t
    unfold memRecordNftTransactionSigned
    exact mapLookup_mapSet_self _ _ _

/-- Witness for C2 (amended) at concrete rows: the Postgres-model insert
rejects a duplicate triple, and the in-memory second record call replaces
the stored row. -/
theorem replay_guard_pg_unique_mem_replaces_witness :
    pgRecordNftTransactionSigned 9 900 [⟨⟨5, 6, 7, 8, 9, 10⟩, 1, 100⟩]
        ⟨5, 6, 7, 11, 12, 13⟩ = .error () ∧
      mapLookup (memRecordNftTransactionSigned 2 200
          (memRecordNftTransactionSigned 1 100 [] ⟨5, 6, 7, 8, 9, 10⟩).1
          ⟨5, 6, 7, 8, 9, 10⟩).1 (5, 6, 7) =
        some { (⟨5, 6, 7, 8, 9, 10⟩ : InsertSignedNftTransaction) with
          id := 2, signedAt := 200 } :=
  ⟨replay_guard_pg_unique_mem_replaces.1 9 900 [⟨⟨5, 6, 7, 8, 9, 10⟩, 1, 100⟩]
      ⟨5, 6, 7, 11, 12, 13⟩ ⟨⟨5, 6, 7, 8, 9, 10⟩, 1, 100⟩ (by simp) rfl rfl rfl,
    replay_guard_pg_unique_mem_replaces.2 1 100 2 200 [] ⟨5, 6, 7, 8, 9, 10⟩⟩

end FerrymanX
